import Mathlib

/-!
Shallow embedding of `remote_postgres_installer.py`, a two-host PostgreSQL
placement and provisioning script.

The remote transport is modelled as a pure oracle: an environment `Env`
says for each host whether an SSH connection succeeds, and for each
(host, command) pair what standard output and standard error the command
produces.  Pythons `float()` parser is likewise an external collaborator
and is a parameter `pyFloat` of the environment.  All workflow logic
(load sampling, target selection, OS detection, install / configure /
verify phases, the orchestrating `run` and `main`) is translated
directly from the source.  Every remote interaction is recorded in an
event trace (`Ev`): session opened, command issued, session closed.
-/

set_option autoImplicit false

namespace RemoteInstaller

/-! ### Python string primitives (ASCII scope) -/

/-- Membership of `pat` as a contiguous sublist, Python `pat in s` on the
character lists. -/
def listContainsChars (pat : List Char) : List Char → Bool
  | [] => pat.isEmpty
  | c :: rest => pat.isPrefixOf (c :: rest) || listContainsChars pat rest

/-- Python substring test `pat in s`. -/
def strContains (s pat : String) : Bool :=
  listContainsChars pat.toList s.toList

/-- Python `s.lower()` (the script only compares ASCII keywords). -/
def strLower (s : String) : String :=
  String.mk (s.toList.map Char.toLower)

/-- Python `s.startswith(pat)`. -/
def strStarts (s pat : String) : Bool :=
  pat.toList.isPrefixOf s.toList

/-- Helper for Python `s.split(",")`: current chunk is accumulated reversed. -/
def splitCommaAux : List Char → List Char → List String
  | [], acc => [String.mk acc.reverse]
  | c :: rest, acc =>
    if c = ',' then String.mk acc.reverse :: splitCommaAux rest []
    else splitCommaAux rest (c :: acc)

/-- Python `s.split(",")`. -/
def pySplitComma (s : String) : List String :=
  splitCommaAux s.toList []

/-- Python `s.strip()`. -/
def pyStrip (s : String) : String :=
  String.mk (((s.toList.dropWhile Char.isWhitespace).reverse.dropWhile
    Char.isWhitespace).reverse)

/-- Helper for Python `s.split()` (split on whitespace runs, dropping
empty chunks). -/
def splitWsAux : List Char → List Char → List String
  | [], [] => []
  | [], acc => [String.mk acc.reverse]
  | c :: rest, acc =>
    if c.isWhitespace then
      match acc with
      | [] => splitWsAux rest []
      | _ :: _ => String.mk acc.reverse :: splitWsAux rest []
    else splitWsAux rest (c :: acc)

/-- Python `s.split()` with no separator argument. -/
def pySplitWs (s : String) : List String :=
  splitWsAux s.toList []

/-- A single quote character, used inside the shell command strings. -/
def SQ : String := (Char.ofNat 39).toString

/-! ### Load samples -/

/-- A load sample: a parsed 1-minute load average, or the `float("inf")`
sentinel the script substitutes when the probe fails. -/
inductive Load where
  | fin (q : ℚ)
  | inf
  deriving DecidableEq, Repr

/-- Python `<` on load values (`inf` compares greater than every finite
value and not less than itself). -/
def Load.lt : Load → Load → Bool
  | .fin a, .fin b => decide (a < b)
  | .fin _, .inf => true
  | .inf, _ => false

/-- Interpretation of a load value in `WithTop ℚ`, for order reasoning. -/
def Load.toW : Load → WithTop ℚ
  | .fin q => (q : WithTop ℚ)
  | .inf => ⊤

/-! ### Python `min(loads, key=loads.get)` -/

/-- One pass of Python `min`: the running best is replaced only on a
strictly smaller value, so the first minimum wins. -/
def minGo : List (String × Load) → String × Load → String × Load
  | [], best => best
  | p :: rest, best =>
    if Load.lt p.2 best.2 then minGo rest p else minGo rest best

/-- Python `min(loads, key=loads.get)` over an insertion-ordered dict,
`none` on an empty dict (Python raises `ValueError` there). -/
def pyMinKey : List (String × Load) → Option String
  | [] => none
  | p :: rest => some (minGo rest p).1

/-! ### Remote commands issued by the script -/

def loadavgCmd : String := "cat /proc/loadavg"

def osReleaseCmd : String := "cat /etc/os-release"

def aptProbeCmd : String := "which apt-get"

def yumProbeCmd : String := "which yum"

/-- Debian branch of `install_postgresql`. -/
def debianCmds : List String :=
  ["apt-get update",
   "apt-get install -y postgresql postgresql-contrib",
   "systemctl status postgresql"]

/-- CentOS / AlmaLinux branch of `install_postgresql`. -/
def centosCmds : List String :=
  ["dnf install -y https://download.postgresql.org/pub/repos/yum/reporpms/EL-8-x86_64/pgdg-redhat-repo-latest.noarch.rpm",
   "dnf -qy module disable postgresql",
   "dnf install -y postgresql14-server",
   "systemctl enable postgresql-14",
   "/usr/pgsql-14/bin/postgresql-14-setup initdb",
   "systemctl start postgresql-14",
   "systemctl status postgresql-14"]

/-- The `sed` rewrite of `listen_addresses` in `postgresql.conf`. -/
def mkSedCmd (conf : String) : String :=
  "sed -i \"s/#listen_addresses = " ++ SQ ++ "localhost" ++ SQ ++
    "/listen_addresses = " ++ SQ ++ "*" ++ SQ ++ "/g\" " ++ conf

/-- The backup copy of `pg_hba.conf`. -/
def mkCpCmd (hba : String) : String :=
  "cp " ++ hba ++ " " ++ hba ++ ".bak"

/-- The heredoc appending the two access rules to `pg_hba.conf`. -/
def mkAppendCmd (hba other : String) : String :=
  "cat <<EOF >> " ++ hba ++
    "\n# Allow user \"student\" from the other server\nhost    all             student         " ++
    other ++
    "/32            md5\n# Allow connections from all addresses\nhost    all             all             0.0.0.0/0                 md5\nEOF"

/-- The role-creation command (`CREATE USER student ...`). -/
def createUserCmd : String :=
  "\nsu - postgres -c \"psql -c \\\"CREATE USER student WITH PASSWORD " ++ SQ ++
    "StrongPassword123!" ++ SQ ++
    ";\\\"\" \nsu - postgres -c \"psql -c \\\"ALTER USER student CREATEDB;\\\"\" \n"

/-- The verification query of `test_postgresql`. -/
def testCmd : String :=
  "su - postgres -c \"psql -c \\\"SELECT 1 as test_connection;\\\"\" "

/-! ### The workflow phases, parametric in the per-target exec oracle
`ex : command -> (stdout, stderr)`.  Each phase also returns the list of
commands it issued, in order. -/

/-- `get_host_load`: read `/proc/loadavg`, parse the first token with
`float()` (`pf`); any failure yields the `inf` sentinel. -/
def get_host_load (pf : String → Option ℚ) (ex : String → String × String) :
    Load × List String :=
  if (ex loadavgCmd).1 = "" then (Load.inf, [loadavgCmd])
  else
    match pySplitWs (ex loadavgCmd).1 with
    | [] => (Load.inf, [loadavgCmd])
    | t :: _ =>
      match pf t with
      | some q => (Load.fin q, [loadavgCmd])
      | none => (Load.inf, [loadavgCmd])

/-- The `os-release` content matches the Debian family. -/
def metaDebian (ex : String → String × String) : Bool :=
  strContains (strLower (ex osReleaseCmd).1) "debian"

/-- The `os-release` content matches the RHEL family. -/
def metaRhel (ex : String → String × String) : Bool :=
  strContains (strLower (ex osReleaseCmd).1) "centos" ||
    strContains (strLower (ex osReleaseCmd).1) "almalinux" ||
    strContains (strLower (ex osReleaseCmd).1) "rhel"

/-- `which` probe positive: nonempty output not starting with `which:`. -/
def whichHit (out : String) : Bool :=
  !(out == "") && !(strStarts out "which:")

/-- `detect_os`, with the list of probe commands actually issued. -/
def detect_os (ex : String → String × String) : String × List String :=
  if metaDebian ex then ("debian", [osReleaseCmd])
  else if metaRhel ex then ("centos", [osReleaseCmd])
  else if whichHit (ex aptProbeCmd).1 then
    ("debian", [osReleaseCmd, aptProbeCmd])
  else if whichHit (ex yumProbeCmd).1 then
    ("centos", [osReleaseCmd, aptProbeCmd, yumProbeCmd])
  else ("unknown", [osReleaseCmd, aptProbeCmd, yumProbeCmd])

/-- The install-phase failure heuristic: case-insensitive scan of the
error stream for "failed" or "error". -/
def installErr (e : String) : Bool :=
  strContains (strLower e) "failed" || strContains (strLower e) "error"

/-- The install-step loop: run each command in order, stop at the first
whose error stream matches `installErr`. -/
def runSteps (ex : String → String × String) : List String → Bool × List String
  | [] => (true, [])
  | c :: rest =>
    if installErr (ex c).2 then (false, [c])
    else
      let r := runSteps ex rest
      (r.1, c :: r.2)

/-- `install_postgresql`. -/
def install_postgresql (ex : String → String × String) (os_type : String) :
    Bool × List String :=
  if os_type = "debian" then runSteps ex debianCmds
  else if os_type = "centos" then runSteps ex centosCmds
  else (false, [])

/-- The command list of the install phase for a supported family. -/
def installCmds (os_type : String) : List String :=
  if os_type = "debian" then debianCmds else centosCmds

/-- Body of `configure_postgresql` once the family-specific paths are
resolved: sed rewrite, backup, append, role creation (the only gated
step), then restart. -/
def configureGo (ex : String → String × String)
    (hba conf restart other : String) : Bool × List String :=
  if strContains (ex createUserCmd).2 "ERROR" then
    (false, [mkSedCmd conf, mkCpCmd hba, mkAppendCmd hba other, createUserCmd])
  else
    (true, [mkSedCmd conf, mkCpCmd hba, mkAppendCmd hba other, createUserCmd,
      restart])

/-- `configure_postgresql`. -/
def configure_postgresql (ex : String → String × String)
    (os_type other : String) : Bool × List String :=
  if os_type = "debian" then
    configureGo ex "/etc/postgresql/14/main/pg_hba.conf"
      "/etc/postgresql/14/main/postgresql.conf"
      "systemctl restart postgresql" other
  else if os_type = "centos" then
    configureGo ex "/var/lib/pgsql/14/data/pg_hba.conf"
      "/var/lib/pgsql/14/data/postgresql.conf"
      "systemctl restart postgresql-14" other
  else (false, [])

/-- The `pg_hba.conf` path for a supported family. -/
def pgHbaPath (os_type : String) : String :=
  if os_type = "debian" then "/etc/postgresql/14/main/pg_hba.conf"
  else "/var/lib/pgsql/14/data/pg_hba.conf"

/-- The `postgresql.conf` path for a supported family. -/
def pgConfPath (os_type : String) : String :=
  if os_type = "debian" then "/etc/postgresql/14/main/postgresql.conf"
  else "/var/lib/pgsql/14/data/postgresql.conf"

/-- `test_postgresql`: success iff the captured output contains both the
column label and the value "1". -/
def test_postgresql (ex : String → String × String) : Bool × List String :=
  (strContains (ex testCmd).1 "test_connection" && strContains (ex testCmd).1 "1",
    [testCmd])

/-! ### The orchestrating run -/

/-- The external world of a run: per-host connectivity, per-host command
outputs, and the `float()` parser. -/
structure Env where
  connects : String → Bool
  exec : String → String → String × String
  pyFloat : String → Option ℚ

/-- Events of a run: a session opened to a host, a command issued on a
host, a session closed. -/
inductive Ev where
  | conn (h : String)
  | cmd (h : String) (c : String)
  | close (h : String)
  deriving DecidableEq, Repr

/-- Tag a list of commands as events on one host. -/
def tagCmds (h : String) (cs : List String) : List Ev :=
  cs.map (Ev.cmd h)

/-- Python dict key insertion: an existing key keeps its position. -/
def keyInsert (ks : List String) (h : String) : List String :=
  if h ∈ ks then ks else ks ++ [h]

/-- Python dict assignment on an insertion-ordered association list. -/
def dictInsert (d : List (String × Load)) (k : String) (v : Load) :
    List (String × Load) :=
  if d.any (fun p => p.1 == k) then
    d.map (fun p => if p.1 == k then (k, v) else p)
  else d ++ [(k, v)]

/-- The connection / sampling loop of `run`: returns the connected-host
dict keys, the load dict, and the event trace. -/
def connectLoop (env : Env) :
    List String → List String → List (String × Load) → List Ev →
      List String × List (String × Load) × List Ev
  | [], ks, lds, tr => (ks, lds, tr)
  | h :: rest, ks, lds, tr =>
    if env.connects h then
      connectLoop env rest (keyInsert ks h)
        (dictInsert lds h (get_host_load env.pyFloat (env.exec h)).1)
        (tr ++ Ev.conn h :: tagCmds h (get_host_load env.pyFloat (env.exec h)).2)
    else connectLoop env rest ks lds tr

/-- Result of a run: a boolean outcome, or an uncaught exception. -/
inductive RunResult where
  | ok (b : Bool)
  | crash
  deriving DecidableEq, Repr

/-- The detect / install / configure / verify pipeline of `run` on the
selected target, with the commands issued. -/
def phases (ex : String → String × String) (other : String) :
    Bool × List String :=
  match detect_os ex with
  | (os, trd) =>
    if os = "unknown" then (false, trd)
    else
      match install_postgresql ex os with
      | (false, tri) => (false, trd ++ tri)
      | (true, tri) =>
        match configure_postgresql ex os other with
        | (false, trc) => (false, trd ++ tri ++ trc)
        | (true, trc) =>
          match test_postgresql ex with
          | (b, trt) => (b, trd ++ tri ++ trc ++ trt)

/-- The tail of `run` after the connection loop.  Note the faithful
quirks: the run aborts early only when the clients dict is empty; the
peer host is the head of a filtered list and its absence is an uncaught
`IndexError` (`crash`); the sessions are closed only on the fully
successful path. -/
def runAfterConnect (env : Env) (hosts ks : List String)
    (lds : List (String × Load)) (tr0 : List Ev) : RunResult × List Ev :=
  if ks = [] then (.ok false, tr0)
  else
    match pyMinKey lds with
    | none => (.crash, tr0)
    | some target =>
      match (hosts.filter (fun h => h != target)).head? with
      | none => (.crash, tr0)
      | some other =>
        match phases (env.exec target) other with
        | (true, trp) =>
          (.ok true, tr0 ++ tagCmds target trp ++ ks.map Ev.close)
        | (false, trp) => (.ok false, tr0 ++ tagCmds target trp)

/-- `RemotePostgresInstaller.run`: connect and sample every host, then
select, detect, install, configure and verify. -/
def runInstaller (env : Env) (hosts : List String) : RunResult × List Ev :=
  runAfterConnect env hosts (connectLoop env hosts [] [] []).1
    (connectLoop env hosts [] [] []).2.1
    (connectLoop env hosts [] [] []).2.2

/-- The host list parsed by `main` from the comma-separated argument. -/
def hostsOf (arg : String) : List String :=
  (pySplitComma arg).map pyStrip

/-- `main`: exit code (`none` for an uncaught exception escaping `run`)
together with the run trace. -/
def mainExit (env : Env) (arg : String) : Option Nat × List Ev :=
  if (hostsOf arg).length ≠ 2 then (some 1, [])
  else
    match runInstaller env (hostsOf arg) with
    | (.ok true, tr) => (some 0, tr)
    | (.ok false, tr) => (some 1, tr)
    | (.crash, tr) => (none, tr)

/-! ### Concrete environments used as test inputs -/

/-- Both hosts connect; the load probe returns empty output on every
host (so every sample is the `inf` sentinel); the target is Debian-like
and every phase succeeds. -/
def envAllInf : Env where
  connects := fun _ => true
  exec := fun _ c =>
    if c = loadavgCmd then ("", "")
    else if c = osReleaseCmd then ("NAME=Debian GNU/Linux", "")
    else if c = testCmd then (" test_connection \n 1", "")
    else ("", "")
  pyFloat := fun _ => none

/-- Both hosts connect but every command returns empty output: all loads
are `inf` and OS detection yields `unknown`. -/
def envSilent : Env where
  connects := fun _ => true
  exec := fun _ _ => ("", "")
  pyFloat := fun _ => none

/-! ### Lemmas about the install-step loop -/

/-- If no step error stream matches the heuristic, all steps run and the
phase succeeds. -/
theorem runSteps_ok (ex : String → String × String) :
    ∀ cmds : List String, (∀ c ∈ cmds, installErr (ex c).2 = false) →
      runSteps ex cmds = (true, cmds)
  | [], _ => rfl
  | c :: rest, h => by
    have hc := h c (List.mem_cons_self c rest)
    have hr := runSteps_ok ex rest (fun x hx => h x (List.mem_cons_of_mem c hx))
    simp [runSteps, hc, hr]

/-- The loop stops at the first step whose error stream matches: the
steps before it ran clean, the offending step is the last one issued. -/
theorem runSteps_fail (ex : String → String × String) :
    ∀ (pre : List String) (c : String) (post : List String),
      (∀ x ∈ pre, installErr (ex x).2 = false) → installErr (ex c).2 = true →
      runSteps ex (pre ++ c :: post) = (false, pre ++ [c])
  | [], c, post, _, hc => by simp [runSteps, hc]
  | x :: pre, c, post, hpre, hc => by
    have hx := hpre x (List.mem_cons_self x pre)
    have ih := runSteps_fail ex pre c post
      (fun y hy => hpre y (List.mem_cons_of_mem x hy)) hc
    simp [runSteps, hx, ih]

/-- For a supported family the install phase is exactly the step loop
over that family's command list. -/
theorem install_eq_runSteps (ex : String → String × String) (os_type : String)
    (hos : os_type = "debian" ∨ os_type = "centos") :
    install_postgresql ex os_type = runSteps ex (installCmds os_type) := by
  rcases hos with rfl | rfl <;> simp [install_postgresql, installCmds]

/-- Claim C5: for both supported OS families the install phase executes
its steps strictly in declared order; it aborts at the first step whose
error stream contains "failed" or "error" case-insensitively, issuing
none of the later steps, and succeeds after issuing all steps when no
error stream matches. -/
theorem install_order_and_abort (ex : String → String × String)
    (os_type : String) (hos : os_type = "debian" ∨ os_type = "centos") :
    ((∀ c ∈ installCmds os_type, installErr (ex c).2 = false) →
        install_postgresql ex os_type = (true, installCmds os_type)) ∧
    (∀ (pre : List String) (c : String) (post : List String),
        installCmds os_type = pre ++ c :: post →
        (∀ x ∈ pre, installErr (ex x).2 = false) →
        installErr (ex c).2 = true →
        install_postgresql ex os_type = (false, pre ++ [c])) := by
  refine ⟨fun h => ?_, fun pre c post he hpre hc => ?_⟩
  · rw [install_eq_runSteps ex os_type hos]
    exact runSteps_ok ex _ h
  · rw [install_eq_runSteps ex os_type hos, he]
    exact runSteps_fail ex pre c post hpre hc

/-- Claim C5 witness: on Debian, a "failed" marker in the error stream
of the very first step aborts the phase with only that step issued. -/
theorem install_order_and_abort_witness :
    install_postgresql
        (fun c => if c = "apt-get update" then ("", "E: update FAILED") else ("", ""))
        "debian" = (false, ["apt-get update"]) :=
  (install_order_and_abort
      (fun c => if c = "apt-get update" then ("", "E: update FAILED") else ("", ""))
      "debian" (Or.inl rfl)).2
    [] "apt-get update"
    ["apt-get install -y postgresql postgresql-contrib",
     "systemctl status postgresql"]
    (by decide) (by decide) (by decide)

/-- Claim C6: for a supported family the configure phase reports failure
iff the error stream of the role-creation command contains the literal,
case-sensitive substring "ERROR"; no other step influences the reported
outcome (any oracle agreeing on the role-creation command yields the
same outcome). -/
theorem configure_gate (ex : String → String × String)
    (os_type other : String) (hos : os_type = "debian" ∨ os_type = "centos") :
    ((configure_postgresql ex os_type other).1 = false ↔
        strContains (ex createUserCmd).2 "ERROR" = true) ∧
    (∀ ex2 : String → String × String, ex2 createUserCmd = ex createUserCmd →
        (configure_postgresql ex2 os_type other).1 =
          (configure_postgresql ex os_type other).1) := by
  constructor
  · rcases hos with rfl | rfl <;>
      cases h : strContains (ex createUserCmd).2 "ERROR" <;>
      simp [configure_postgresql, configureGo, h]
  · intro ex2 he
    rcases hos with rfl | rfl <;>
      simp [configure_postgresql, configureGo, he]

/-- Claim C6 witness: a lowercase "error" in the role-creation error
stream does not fail the phase, the uppercase literal does. -/
theorem configure_gate_witness :
    (configure_postgresql
        (fun c => if c = createUserCmd then ("", "psql: ERROR: exists") else ("", ""))
        "debian" "10.0.0.2").1 = false :=
  (configure_gate
      (fun c => if c = createUserCmd then ("", "psql: ERROR: exists") else ("", ""))
      "debian" "10.0.0.2" (Or.inl rfl)).1.mpr (by decide)

/-- Claim C7: for a supported family the configure phase always issues
the listen-address rewrite, then the authentication-file backup, then
the access-rule append, as its first three commands, whatever the
command outcomes are. -/
theorem configure_order (ex : String → String × String)
    (os_type other : String) (hos : os_type = "debian" ∨ os_type = "centos") :
    (configure_postgresql ex os_type other).2.take 3 =
      [mkSedCmd (pgConfPath os_type), mkCpCmd (pgHbaPath os_type),
       mkAppendCmd (pgHbaPath os_type) other] := by
  rcases hos with rfl | rfl <;>
    cases h : strContains (ex createUserCmd).2 "ERROR" <;>
    simp [configure_postgresql, configureGo, pgConfPath, pgHbaPath, h]

/-- Claim C7 witness: concrete instance on CentOS with a failing
role-creation step. -/
theorem configure_order_witness :
    (configure_postgresql (fun _ => ("", "ERROR")) "centos" "10.0.0.2").2.take 3 =
      [mkSedCmd (pgConfPath "centos"), mkCpCmd (pgHbaPath "centos"),
       mkAppendCmd (pgHbaPath "centos") "10.0.0.2"] :=
  configure_order (fun _ => ("", "ERROR")) "centos" "10.0.0.2" (Or.inr rfl)

/-- Claim C8: the verification probe succeeds iff the captured output of
the test query contains both the literal column label and the literal
value "1"; every other output, the empty one included, fails. -/
theorem verify_iff (ex : String → String × String) :
    (test_postgresql ex).1 = true ↔
      strContains (ex testCmd).1 "test_connection" = true ∧
        strContains (ex testCmd).1 "1" = true := by
  simp [test_postgresql]

/-- Claim C4: OS detection is a prioritized probe sequence — a Debian
keyword in the metadata wins, then a RHEL keyword, then the apt probe,
then the yum probe; the binary probes are issued only when the metadata
matches neither family, and the result is "unknown" exactly when all
probes fail. -/
theorem detect_priority (ex : String → String × String) :
    (metaDebian ex = true → detect_os ex = ("debian", [osReleaseCmd])) ∧
    (metaDebian ex = false → metaRhel ex = true →
        detect_os ex = ("centos", [osReleaseCmd])) ∧
    (metaDebian ex = false → metaRhel ex = false →
        whichHit (ex aptProbeCmd).1 = true →
        detect_os ex = ("debian", [osReleaseCmd, aptProbeCmd])) ∧
    (metaDebian ex = false → metaRhel ex = false →
        whichHit (ex aptProbeCmd).1 = false →
        whichHit (ex yumProbeCmd).1 = true →
        detect_os ex = ("centos", [osReleaseCmd, aptProbeCmd, yumProbeCmd])) ∧
    ((detect_os ex).1 = "unknown" ↔
        metaDebian ex = false ∧ metaRhel ex = false ∧
        whichHit (ex aptProbeCmd).1 = false ∧
        whichHit (ex yumProbeCmd).1 = false) := by
  cases h1 : metaDebian ex <;> cases h2 : metaRhel ex <;>
    cases h3 : whichHit (ex aptProbeCmd).1 <;>
    cases h4 : whichHit (ex yumProbeCmd).1 <;>
    simp [detect_os, h1, h2, h3, h4]

/-- Claim C4 witness: a Debian metadata line is classified from the
metadata probe alone. -/
theorem detect_priority_witness :
    detect_os (envAllInf.exec "h1") = ("debian", [osReleaseCmd]) :=
  (detect_priority (envAllInf.exec "h1")).1 (by decide)

/-! ### The placement selector -/

/-- The Boolean comparison on load values agrees with the order of
`WithTop ℚ`. -/
theorem Load.lt_iff (a b : Load) : Load.lt a b = true ↔ a.toW < b.toW := by
  cases a <;> cases b <;> simp [Load.lt, Load.toW]

/-- The running-minimum pass either keeps the initial best (nothing in
the list beats it) or lands on a list element that beats it, is minimal,
and is strictly smaller than everything before it. -/
theorem minGo_spec (l : List (String × Load)) : ∀ best : String × Load,
    (minGo l best = best ∧ ∀ p ∈ l, ¬ p.2.toW < best.2.toW) ∨
    (∃ l₁ q l₂, l = l₁ ++ q :: l₂ ∧ minGo l best = q ∧
      q.2.toW < best.2.toW ∧ (∀ p ∈ l, ¬ p.2.toW < q.2.toW) ∧
      (∀ p ∈ l₁, q.2.toW < p.2.toW)) := by
  induction l with
  | nil => intro best; exact Or.inl ⟨rfl, by simp⟩
  | cons p rest ih =>
    intro best
    by_cases hlt : Load.lt p.2 best.2 = true
    · have hlt' : p.2.toW < best.2.toW := (Load.lt_iff _ _).1 hlt
      have hgo : minGo (p :: rest) best = minGo rest p := by
        simp [minGo, hlt]
      rcases ih p with ⟨heq, hall⟩ | ⟨l₁, q, l₂, hdec, heq, hqlt, hmin, hfirst⟩
      · refine Or.inr ⟨[], p, rest, rfl, by rw [hgo, heq], hlt', ?_, by simp⟩
        intro x hx
        rcases List.mem_cons.1 hx with rfl | hx
        · exact lt_irrefl _
        · exact hall x hx
      · refine Or.inr ⟨p :: l₁, q, l₂, by rw [hdec]; rfl,
          by rw [hgo, heq], lt_trans hqlt hlt', ?_, ?_⟩
        · intro x hx
          rcases List.mem_cons.1 hx with rfl | hx
          · exact lt_asymm hqlt
          · exact hmin x hx
        · intro x hx
          rcases List.mem_cons.1 hx with rfl | hx
          · exact hqlt
          · exact hfirst x hx
    · have hnlt : ¬ p.2.toW < best.2.toW := fun hw =>
        hlt ((Load.lt_iff _ _).2 hw)
      have hle : best.2.toW ≤ p.2.toW := not_lt.1 hnlt
      have hgo : minGo (p :: rest) best = minGo rest best := by
        simp [minGo, hlt]
      rcases ih best with ⟨heq, hall⟩ | ⟨l₁, q, l₂, hdec, heq, hqlt, hmin, hfirst⟩
      · refine Or.inl ⟨by rw [hgo, heq], ?_⟩
        intro x hx
        rcases List.mem_cons.1 hx with rfl | hx
        · exact hnlt
        · exact hall x hx
      · refine Or.inr ⟨p :: l₁, q, l₂, by rw [hdec]; rfl,
          by rw [hgo, heq], hqlt, ?_, ?_⟩
        · intro x hx
          rcases List.mem_cons.1 hx with rfl | hx
          · exact lt_asymm (lt_of_lt_of_le hqlt hle)
          · exact hmin x hx
        · intro x hx
          rcases List.mem_cons.1 hx with rfl | hx
          · exact lt_of_lt_of_le hqlt hle
          · exact hfirst x hx

/-- Claim C2: on any load mapping with at least one finite sample, the
selector returns the host at some position whose load is minimal, and
every host strictly before that position has a strictly larger load —
ties resolve to the first host in input order. -/
theorem selector_min_first (lds : List (String × Load))
    (hfin : ∃ p, p ∈ lds ∧ p.2 ≠ Load.inf) :
    ∃ l₁ q l₂, lds = l₁ ++ q :: l₂ ∧ pyMinKey lds = some q.1 ∧
      (∀ p ∈ lds, ¬ p.2.toW < q.2.toW) ∧
      (∀ p ∈ l₁, q.2.toW < p.2.toW) := by
  obtain ⟨p0, hp0, -⟩ := hfin
  rcases lds with - | ⟨hd, tl⟩
  · exact absurd hp0 (List.not_mem_nil p0)
  rcases minGo_spec tl hd with ⟨heq, hall⟩ |
      ⟨l₁, q, l₂, hdec, heq, hqlt, hmin, hfirst⟩
  · refine ⟨[], hd, tl, rfl, by simp [pyMinKey, heq], ?_, by simp⟩
    intro x hx
    rcases List.mem_cons.1 hx with rfl | hx
    · exact lt_irrefl _
    · exact hall x hx
  · refine ⟨hd :: l₁, q, l₂, by rw [hdec]; rfl,
      by simp [pyMinKey, heq], ?_, ?_⟩
    · intro x hx
      rcases List.mem_cons.1 hx with rfl | hx
      · exact lt_asymm hqlt
      · exact hmin x hx
    · intro x hx
      rcases List.mem_cons.1 hx with rfl | hx
      · exact hqlt
      · exact hfirst x hx

/-- A sample mapping with a tie on the minimal value. -/
def sampleLoads : List (String × Load) :=
  [("h1", Load.fin 2), ("h2", Load.fin 1), ("h3", Load.fin 1)]

/-- Claim C2 witness: concrete instance with a tie between the second
and third host. -/
theorem selector_min_first_witness :
    (∃ p, p ∈ sampleLoads ∧ p.2 ≠ Load.inf) ∧
    (∃ l₁ q l₂, sampleLoads = l₁ ++ q :: l₂ ∧
        pyMinKey sampleLoads = some q.1 ∧
        (∀ p ∈ sampleLoads, ¬ p.2.toW < q.2.toW) ∧
        (∀ p ∈ l₁, q.2.toW < p.2.toW)) :=
  ⟨⟨("h1", Load.fin 2), by decide⟩, selector_min_first sampleLoads
    ⟨("h1", Load.fin 2), by decide⟩⟩

/-! ### Lemmas about the connection loop -/

/-- If no host connects, the connection loop changes nothing. -/
theorem connectLoop_none (env : Env) :
    ∀ (hosts ks : List String) (lds : List (String × Load)) (tr : List Ev),
      (∀ x ∈ hosts, env.connects x = false) →
      connectLoop env hosts ks lds tr = (ks, lds, tr)
  | [], _, _, _, _ => rfl
  | h :: rest, ks, lds, tr, hall => by
    have hh := hall h (List.mem_cons_self h rest)
    have ih := connectLoop_none env rest ks lds tr
      (fun x hx => hall x (List.mem_cons_of_mem h hx))
    simp [connectLoop, hh, ih]

/-- The inserted key is a member of the dict key list. -/
theorem keyInsert_mem_self (ks : List String) (h : String) :
    h ∈ keyInsert ks h := by
  unfold keyInsert
  split
  · assumption
  · simp

/-- Key insertion preserves existing keys. -/
theorem keyInsert_mem_of_mem {ks : List String} {x : String} (hx : x ∈ ks)
    (h : String) : x ∈ keyInsert ks h := by
  unfold keyInsert
  split
  · exact hx
  · exact List.mem_append_left _ hx

/-- Every `conn` event in the trace produced by the connection loop
names a key of the resulting clients dict. -/
theorem connectLoop_conn (env : Env) :
    ∀ (hosts ks : List String) (lds : List (String × Load)) (tr : List Ev)
      (x : String),
      (Ev.conn x ∈ tr → x ∈ ks) →
      Ev.conn x ∈ (connectLoop env hosts ks lds tr).2.2 →
      x ∈ (connectLoop env hosts ks lds tr).1
  | [], _, _, _, _, hpre, hmem => hpre hmem
  | h :: rest, ks, lds, tr, x, hpre, hmem => by
    by_cases hc : env.connects h = true
    · rw [connectLoop, if_pos hc] at hmem ⊢
      refine connectLoop_conn env rest _ _ _ x (fun hm => ?_) hmem
      rcases List.mem_append.1 hm with hm | hm
      · exact keyInsert_mem_of_mem (hpre hm) h
      · rcases List.mem_cons.1 hm with he | hm
        · have hx : x = h := by injection he
          rw [hx]
          exact keyInsert_mem_self ks h
        · obtain ⟨c, -, hcon⟩ := List.mem_map.1 hm
          exact absurd hcon.symm (by simp)
    · rw [connectLoop, if_neg hc] at hmem ⊢
      exact connectLoop_conn env rest ks lds tr x hpre hmem

/-- The connection loop emits no `close` event. -/
theorem connectLoop_no_close (env : Env) :
    ∀ (hosts ks : List String) (lds : List (String × Load)) (tr : List Ev)
      (x : String),
      Ev.close x ∉ tr →
      Ev.close x ∉ (connectLoop env hosts ks lds tr).2.2
  | [], _, _, _, _, hpre => hpre
  | h :: rest, ks, lds, tr, x, hpre => by
    by_cases hc : env.connects h = true
    · rw [connectLoop, if_pos hc]
      refine connectLoop_no_close env rest _ _ _ x (fun hm => ?_)
      rcases List.mem_append.1 hm with hm | hm
      · exact hpre hm
      · rcases List.mem_cons.1 hm with he | hm
        · exact absurd he (by simp)
        · obtain ⟨c, -, hcon⟩ := List.mem_map.1 hm
          exact absurd hcon.symm (by simp)
    · rw [connectLoop, if_neg hc]
      exact connectLoop_no_close env rest ks lds tr x hpre

/-! ### Claim C1 — selection when every sample is infinity -/

/-- Claim C1 counterexample: with both hosts connected but every load
probe failing, every sample is the infinity sentinel, yet the run does
not stop at selection — it picks a target, reaches OS detection on it,
and here even finishes successfully. -/
theorem allInf_still_selects :
    (connectLoop envAllInf ["h1", "h2"] [] [] []).2.1 =
        [("h1", Load.inf), ("h2", Load.inf)] ∧
      Ev.cmd "h1" osReleaseCmd ∈ (runInstaller envAllInf ["h1", "h2"]).2 ∧
      (runInstaller envAllInf ["h1", "h2"]).1 = RunResult.ok true := by
  refine ⟨by decide, by decide, by decide⟩

/-- The connection loop only ever appends to the trace accumulator. -/
theorem connectLoop_trace_extends (env : Env) :
    ∀ (hosts ks : List String) (lds : List (String × Load)) (tr : List Ev),
      ∃ tr2, (connectLoop env hosts ks lds tr).2.2 = tr ++ tr2
  | [], ks, lds, tr => ⟨[], by simp [connectLoop]⟩
  | h :: rest, ks, lds, tr => by
    by_cases hc : env.connects h = true
    · rw [connectLoop, if_pos hc]
      obtain ⟨tr2, htr⟩ := connectLoop_trace_extends env rest (keyInsert ks h)
        (dictInsert lds h (get_host_load env.pyFloat (env.exec h)).1)
        (tr ++ Ev.conn h :: tagCmds h (get_host_load env.pyFloat (env.exec h)).2)
      exact ⟨Ev.conn h ::
          tagCmds h (get_host_load env.pyFloat (env.exec h)).2 ++ tr2,
        by rw [htr]; simp⟩
    · rw [connectLoop, if_neg hc]
      exact connectLoop_trace_extends env rest ks lds tr

/-- If some host connects, the connection loop emits a nonempty
trace. -/
theorem connectLoop_trace_ne_nil (env : Env) :
    ∀ (hosts ks : List String) (lds : List (String × Load)) (tr : List Ev)
      (x : String), x ∈ hosts → env.connects x = true →
      (connectLoop env hosts ks lds tr).2.2 ≠ []
  | [], _, _, _, x, hx, _ => absurd hx (List.not_mem_nil x)
  | h :: rest, ks, lds, tr, x, hx, hcx => by
    by_cases hc : env.connects h = true
    · rw [connectLoop, if_pos hc]
      obtain ⟨tr2, htr⟩ := connectLoop_trace_extends env rest (keyInsert ks h)
        (dictInsert lds h (get_host_load env.pyFloat (env.exec h)).1)
        (tr ++ Ev.conn h :: tagCmds h (get_host_load env.pyFloat (env.exec h)).2)
      rw [htr]
      simp
    · rw [connectLoop, if_neg hc]
      rcases List.mem_cons.1 hx with rfl | hx2
      · exact absurd hcx hc
      · exact connectLoop_trace_ne_nil env rest ks lds tr x hx2 hcx

/-- An empty run trace forces an empty connection-loop trace: every
branch of the run tail extends it. -/
theorem runAfterConnect_trace_nil (env : Env) (hosts ks : List String)
    (lds : List (String × Load)) (tr0 : List Ev) :
    (runAfterConnect env hosts ks lds tr0).2 = [] → tr0 = [] := by
  unfold runAfterConnect
  split
  · exact fun h => h
  split
  · exact fun h => h
  split
  · exact fun h => h
  split
  · intro h
    exact (List.append_eq_nil.1 (List.append_eq_nil.1 h).1).1
  · intro h
    exact (List.append_eq_nil.1 h).1

/-- Claim C1 (amended): the run terminates reporting failure before OS
detection — no session opened, no command issued, no target chosen
(empty trace) — exactly when no host could be connected.  (That every
sampled load is infinity does not by itself trigger this failure, per
the counterexample above.) -/
theorem no_connection_aborts (env : Env) (hosts : List String) :
    runInstaller env hosts = (RunResult.ok false, []) ↔
      ∀ x ∈ hosts, env.connects x = false := by
  constructor
  · intro hrun x hx
    cases hb : env.connects x with
    | false => rfl
    | true =>
      have hne := connectLoop_trace_ne_nil env hosts [] [] [] x hx hb
      have htr : (runInstaller env hosts).2 = [] := by rw [hrun]
      exact absurd (runAfterConnect_trace_nil env hosts _ _ _ htr) hne
  · intro h
    simp [runInstaller, runAfterConnect, connectLoop_none env hosts [] [] [] h]

/-- Claim C1 witness: both connections refused — the run reports failure
with an empty trace. -/
theorem no_connection_aborts_witness :
    runInstaller
        { connects := fun _ => false, exec := fun _ _ => ("", ""),
          pyFloat := fun _ => none } ["h1", "h2"] =
      (RunResult.ok false, []) :=
  (no_connection_aborts _ ["h1", "h2"]).mpr (by decide)

/-! ### Claim C3 — session closing -/

/-- Claim C3 counterexample: a run that aborts (unknown OS) leaves both
opened sessions unclosed. -/
theorem failing_run_leaks_sessions :
    (runInstaller envSilent ["h1", "h2"]).1 = RunResult.ok false ∧
      Ev.conn "h1" ∈ (runInstaller envSilent ["h1", "h2"]).2 ∧
      Ev.close "h1" ∉ (runInstaller envSilent ["h1", "h2"]).2 ∧
      Ev.conn "h2" ∈ (runInstaller envSilent ["h1", "h2"]).2 ∧
      Ev.close "h2" ∉ (runInstaller envSilent ["h1", "h2"]).2 := by
  refine ⟨by decide, by decide, by decide, by decide, by decide⟩

/-- A `close` event never occurs among tagged commands. -/
theorem close_not_mem_tagCmds (x t : String) (cs : List String) :
    Ev.close x ∉ tagCmds t cs := by
  intro hm
  obtain ⟨c, -, hcon⟩ := List.mem_map.1 hm
  exact absurd hcon.symm (by simp)

/-- A `conn` event never occurs among tagged commands. -/
theorem conn_not_mem_tagCmds (x t : String) (cs : List String) :
    Ev.conn x ∉ tagCmds t cs := by
  intro hm
  obtain ⟨c, -, hcon⟩ := List.mem_map.1 hm
  exact absurd hcon.symm (by simp)

/-- Session accounting for the tail of the run: sessions are closed on
the successful outcome and only there. -/
theorem runAfterConnect_sessions (env : Env) (hosts ks : List String)
    (lds : List (String × Load)) (tr0 : List Ev) (x : String)
    (hno : Ev.close x ∉ tr0) (hcm : Ev.conn x ∈ tr0 → x ∈ ks) :
    ((runAfterConnect env hosts ks lds tr0).1 = RunResult.ok true →
        Ev.conn x ∈ (runAfterConnect env hosts ks lds tr0).2 →
        Ev.close x ∈ (runAfterConnect env hosts ks lds tr0).2) ∧
    ((runAfterConnect env hosts ks lds tr0).1 ≠ RunResult.ok true →
        Ev.close x ∉ (runAfterConnect env hosts ks lds tr0).2) := by
  unfold runAfterConnect
  split
  · exact ⟨fun hres => absurd hres (by simp), fun _ => hno⟩
  split
  · exact ⟨fun hres => absurd hres (by simp), fun _ => hno⟩
  split
  · exact ⟨fun hres => absurd hres (by simp), fun _ => hno⟩
  split
  · next trp hp =>
    refine ⟨fun _ hm => ?_, fun hres => absurd rfl hres⟩
    rcases List.mem_append.1 hm with hm | hm
    · rcases List.mem_append.1 hm with hm | hm
      · exact List.mem_append_right _ (List.mem_map.2 ⟨x, hcm hm, rfl⟩)
      · exact absurd hm (conn_not_mem_tagCmds x _ trp)
    · obtain ⟨y, -, hcon⟩ := List.mem_map.1 hm
      exact absurd hcon.symm (by simp)
  · next trp hp =>
    refine ⟨fun hres => absurd hres (by simp), fun _ hm => ?_⟩
    rcases List.mem_append.1 hm with hm | hm
    · exact hno hm
    · exact absurd hm (close_not_mem_tagCmds x _ trp)

/-- Claim C3 (amended): every session opened during a run is closed by
the end of the run when the run completes successfully; on every other
outcome no session is closed at all. -/
theorem sessions_closed_iff_success (env : Env) (hosts : List String)
    (x : String) :
    ((runInstaller env hosts).1 = RunResult.ok true →
        Ev.conn x ∈ (runInstaller env hosts).2 →
        Ev.close x ∈ (runInstaller env hosts).2) ∧
    ((runInstaller env hosts).1 ≠ RunResult.ok true →
        Ev.close x ∉ (runInstaller env hosts).2) := by
  have hno : Ev.close x ∉ (connectLoop env hosts [] [] []).2.2 :=
    connectLoop_no_close env hosts [] [] [] x (by simp)
  have hcm : Ev.conn x ∈ (connectLoop env hosts [] [] []).2.2 →
      x ∈ (connectLoop env hosts [] [] []).1 :=
    connectLoop_conn env hosts [] [] [] x (by simp)
  exact runAfterConnect_sessions env hosts _ _ _ x hno hcm

/-- Claim C3 witness: in the fully successful run both opened sessions
are closed. -/
theorem sessions_closed_iff_success_witness :
    Ev.close "h1" ∈ (runInstaller envAllInf ["h1", "h2"]).2 :=
  (sessions_closed_iff_success envAllInf ["h1", "h2"] "h1").1
    (by decide) (by decide)

/-! ### Claim C9 — process exit code -/

/-- Claim C9: the exit code is 0 exactly when the workflow succeeds; a
malformed host count exits 1 without running any phase (empty trace),
and a failed workflow exits 1. -/
theorem exit_code_iff (env : Env) (arg : String) :
    ((mainExit env arg).1 = some 0 ↔
        (hostsOf arg).length = 2 ∧
          (runInstaller env (hostsOf arg)).1 = RunResult.ok true) ∧
    ((hostsOf arg).length ≠ 2 → mainExit env arg = (some 1, [])) ∧
    ((hostsOf arg).length = 2 →
        (runInstaller env (hostsOf arg)).1 = RunResult.ok false →
        (mainExit env arg).1 = some 1) := by
  by_cases hl : (hostsOf arg).length = 2
  · rcases hr : runInstaller env (hostsOf arg) with ⟨res, tr⟩
    cases res with
    | ok b => cases b <;> simp [mainExit, hl, hr]
    | crash => simp [mainExit, hl, hr]
  · simp [mainExit, hl]

/-- Claim C9 witness: a single-host argument exits 1 with no phase
run. -/
theorem exit_code_iff_witness : mainExit envSilent "10.0.0.1" = (some 1, []) :=
  (exit_code_iff envSilent "10.0.0.1").2.1 (by decide)

/-! ### Claim C10 — duplicate host identifiers -/

/-- Claim C10: when both supplied hosts are the same string and that
host connects (hence is selected as target), the peer-host list is empty
and the run ends in an uncaught indexing error rather than an
outcome. -/
theorem duplicate_host_crashes (env : Env) (a : String)
    (hconn : env.connects a = true) :
    (runInstaller env [a, a]).1 = RunResult.crash := by
  simp [runInstaller, connectLoop, hconn, keyInsert, dictInsert,
    runAfterConnect, pyMinKey, minGo, List.filter]

/-- Claim C10 witness: concrete duplicated host. -/
theorem duplicate_host_crashes_witness :
    (runInstaller envSilent ["10.0.0.1", "10.0.0.1"]).1 = RunResult.crash :=
  duplicate_host_crashes envSilent "10.0.0.1" rfl

end RemoteInstaller
